import Mathlib

/-!
Verification of the multi-strategy trading-signal core (mvpfx):
shallow embedding of `indicators.py`, `strategy.py` and `backtest.py`
over exact rational arithmetic (`ℚ`), with `Option ℚ` modelling pandas
NaN cells (comparisons against `none` are false, mirroring IEEE NaN
comparison semantics used throughout the source).

Series-level pandas operations (`mask`, `where`, elementwise comparison,
`ewm(adjust=False)`, `rolling(min_periods=period)`) are embedded either
as list transformations (indicator pipeline) or per-bar, when the source
operation is elementwise (strategy conditions, vote combination, SL/TP
assignment).
-/

namespace Mvpfx

/-- Machine epsilon constant `1e-10` used by the source's divide-by-zero
guards, as an exact rational. -/
def eps : ℚ := 1 / 10000000000

/-- Smoothing factor for `ewm(span=period)`: `α = 2/(span+1)`. -/
def alphaOfSpan (period : ℕ) : ℚ := 2 / ((period : ℚ) + 1)

/-- One step of `ewm(..., adjust=False).mean()`: `y = (1-α)·s + α·x`. -/
def ewmStep (a s x : ℚ) : ℚ := (1 - a) * s + a * x

/-- Running tail of an exponentially weighted mean seeded at `s`. -/
def ewmFrom (a : ℚ) (s : ℚ) : List ℚ → List ℚ
  | [] => []
  | x :: xs => ewmStep a s x :: ewmFrom a (ewmStep a s x) xs

/-- Embeds `series.ewm(alpha=a, adjust=False).mean()` on a NaN-free
series: the first value seeds the recursion. -/
def ewm (a : ℚ) : List ℚ → List ℚ
  | [] => []
  | x :: xs => x :: ewmFrom a x xs

/-- Embeds `ema` from `indicators.py`:
`series.ewm(span=period, adjust=False).mean()`. -/
def ema (series : List ℚ) (period : ℕ) : List ℚ :=
  ewm (alphaOfSpan period) series

/-- Per-bar RSI value once smoothed gain/loss are available. The source
computes `rs = gain / loss.replace(0, nan)` and `(100 - 100/(1+rs)).fillna(50)`,
so a zero smoothed loss is routed through NaN and lands on 50. -/
def rsiVal (gain loss : ℚ) : ℚ :=
  if loss = 0 then 50 else 100 - 100 / (1 + gain / loss)

/-- Embeds `rsi` from `indicators.py` on a NaN-free close series.
`close.diff()` is NaN at index 0, so pandas' `ewm(adjust=False)` seeds the
smoothed gain/loss at index 1 with the first delta; index 0 of the output
is NaN and becomes 50 through the final `fillna(50.0)`. -/
def rsi (close : List ℚ) (period : ℕ) : List ℚ :=
  match close with
  | [] => []
  | c :: rest =>
    let deltas := List.zipWith (fun a b => a - b) rest (c :: rest)
    let gains := ewm (1 / (period : ℚ)) (deltas.map (fun d => max d 0))
    let losses := ewm (1 / (period : ℚ)) (deltas.map (fun d => max (-d) 0))
    50 :: List.zipWith rsiVal gains losses

/-- Embeds `macd` from `indicators.py`: MACD line, signal line, histogram. -/
def macd (close : List ℚ) (fast slow signalPeriod : ℕ) :
    List ℚ × List ℚ × List ℚ :=
  let line := List.zipWith (fun a b => a - b) (ema close fast) (ema close slow)
  let sig := ewm (alphaOfSpan signalPeriod) line
  (line, sig, List.zipWith (fun a b => a - b) line sig)

/-- Embeds `series.shift(1)`: the head becomes NaN (`none`). -/
def shift1 (xs : List ℚ) : List (Option ℚ) :=
  match xs with
  | [] => []
  | _ :: _ => none :: (xs.take (xs.length - 1)).map some

/-- Embeds `true_range`: `max(h-l, |h-prev_close|, |l-prev_close|)`,
where the prev-close terms are NaN on the first bar and pandas'
row-wise `max` skips NaN, leaving `h-l`. -/
def true_range (h l c : List ℚ) : List ℚ :=
  List.zipWith (fun hl pc =>
    match pc with
    | none => hl.1 - hl.2
    | some p => max (hl.1 - hl.2) (max |hl.1 - p| |hl.2 - p|))
    (h.zip l) (shift1 c)

/-- Embeds `atr`: exponentially smoothed true range, `ewm(span=period)`. -/
def atr (h l c : List ℚ) (period : ℕ) : List ℚ :=
  ewm (alphaOfSpan period) (true_range h l c)

/-- Rolling window of width `p` ending at each index, `none` until `p`
samples have accumulated (pandas `rolling(window=p, min_periods=p)`). -/
def windowsA {γ : Type} (p : ℕ) (xs : List γ) : List (Option (List γ)) :=
  (List.range xs.length).map (fun i =>
    if p ≤ i + 1 then some ((xs.take (i + 1)).drop (i + 1 - p)) else none)

/-- Arithmetic mean of a rational list (0 on the empty list, matching
`np.mean` only where the source guards emptiness itself). -/
def meanQ (xs : List ℚ) : ℚ := xs.sum / (xs.length : ℚ)

/-- Embeds `rolling(window=p, min_periods=p).mean()`. -/
def rollMean (p : ℕ) (xs : List ℚ) : List (Option ℚ) :=
  (windowsA p xs).map (Option.map meanQ)

/-- Population variance of a window (square of `std(ddof=0)`). -/
def varQ (xs : List ℚ) : ℚ := meanQ (xs.map (fun x => (x - meanQ xs) ^ 2))

/-- Embeds `rolling(window=p, min_periods=p).min()`. -/
def rollMin (p : ℕ) (xs : List ℚ) : List (Option ℚ) :=
  (windowsA p xs).map (Option.map (fun w => w.foldr min (w.headI)))

/-- Embeds `rolling(window=p, min_periods=p).max()`. -/
def rollMax (p : ℕ) (xs : List ℚ) : List (Option ℚ) :=
  (windowsA p xs).map (Option.map (fun w => w.foldr max (w.headI)))

/-- Embeds `bollinger` from `indicators.py`. The middle band is the
rolling mean; upper/lower are `mid ± k·std` where `std` is the square
root of the population variance, which is irrational in general, hence
the `ℝ`-valued bands (the source computes in floating point). -/
noncomputable def bollinger (c : List ℚ) (period : ℕ) (k : ℚ) :
    List (Option ℚ) × List (Option ℝ) × List (Option ℝ) :=
  let mid := rollMean period c
  let sd : List (Option ℝ) :=
    (windowsA period c).map (Option.map (fun w => Real.sqrt ((varQ w : ℚ) : ℝ)))
  let upper := List.zipWith (fun m s =>
    match m, s with
    | some m, some s => some ((m : ℝ) + (k : ℝ) * s)
    | _, _ => none) mid sd
  let lower := List.zipWith (fun m s =>
    match m, s with
    | some m, some s => some ((m : ℝ) - (k : ℝ) * s)
    | _, _ => none) mid sd
  (mid, upper, lower)

/-- Embeds `stochastic` from `indicators.py`. `%K` is NaN until the
rolling window fills, `%D` is a full-window rolling mean of `%K`
(window entries must all be non-NaN), and both are `fillna(50.0)`. -/
def stochastic (high low close : List ℚ) (kPeriod dPeriod : ℕ) :
    List ℚ × List ℚ :=
  let ll := rollMin kPeriod low
  let hh := rollMax kPeriod high
  let kraw : List (Option ℚ) :=
    List.zipWith (fun cl p =>
      match p.1, p.2 with
      | some lo, some hi => some (((cl - lo) / (hi - lo + eps)) * 100)
      | _, _ => none) close (ll.zip hh)
  let draw : List (Option ℚ) :=
    (windowsA dPeriod kraw).map (fun w =>
      match w with
      | none => none
      | some ws =>
        if ws.all Option.isSome then some (meanQ (ws.filterMap id)) else none)
  (kraw.map (fun o => o.getD 50), draw.map (fun o => o.getD 50))

/-- Embeds `williams_r` from `indicators.py`, `fillna(-50.0)`. -/
def williams_r (high low close : List ℚ) (period : ℕ) : List ℚ :=
  let hh := rollMax period high
  let ll := rollMin period low
  (List.zipWith (fun cl p =>
    match p.1, p.2 with
    | some hi, some lo => some (((hi - cl) / (hi - lo + eps)) * (-100))
    | _, _ => none) close (hh.zip ll)).map (fun o => o.getD (-50))

/-- Embeds `series.diff()`: NaN at the head, pairwise difference after. -/
def diffO (xs : List ℚ) : List (Option ℚ) :=
  match xs with
  | [] => []
  | c :: rest => none :: (List.zipWith (fun a b => some (a - b)) rest (c :: rest))

/-- Embeds `adx` from `indicators.py`: directional movement gated to the
larger positive move (`np.where` on a NaN comparison yields the 0 branch,
so index 0 is 0), EMA smoothing, epsilon-guarded DI/DX, EMA of DX.
Every output value is defined, so the trailing `fillna(25.0)` is a no-op. -/
def adx (high low close : List ℚ) (period : ℕ) :
    List ℚ × List ℚ × List ℚ :=
  let tr := true_range high low close
  let upMove := diffO high
  let downMove := (diffO low).map (Option.map Neg.neg)
  let plusDm : List ℚ := List.zipWith (fun u d =>
    match u, d with
    | some u, some d => if u > d ∧ u > 0 then u else 0
    | _, _ => 0) upMove downMove
  let minusDm : List ℚ := List.zipWith (fun u d =>
    match u, d with
    | some u, some d => if d > u ∧ d > 0 then d else 0
    | _, _ => 0) upMove downMove
  let atrVal := ewm (alphaOfSpan period) tr
  let plusDi := List.zipWith (fun x a => 100 * (x / (a + eps)))
    (ewm (alphaOfSpan period) plusDm) atrVal
  let minusDi := List.zipWith (fun x a => 100 * (x / (a + eps)))
    (ewm (alphaOfSpan period) minusDm) atrVal
  let dx := List.zipWith (fun p m => 100 * |p - m| / (p + m + eps)) plusDi minusDi
  (ewm (alphaOfSpan period) dx, plusDi, minusDi)

/-- Embeds `cci` from `indicators.py`: typical price vs its rolling SMA,
scaled by `0.015 ×` rolling mean absolute deviation, epsilon-guarded,
`fillna(0.0)`. -/
def cci (high low close : List ℚ) (period : ℕ) : List ℚ :=
  let tp := List.zipWith (fun h p => (h + p.1 + p.2) / 3) high (low.zip close)
  let smaTp := rollMean period tp
  let mad := (windowsA period tp).map
    (Option.map (fun w => meanQ (w.map (fun x => |x - meanQ w|))))
  (List.zipWith (fun t p =>
    match p.1, p.2 with
    | some s, some m => some ((t - s) / ((3 / 200) * m + eps))
    | _, _ => none) tp (smaTp.zip mad)).map (fun o => o.getD 0)

/-- Embeds `series.shift(p)`: `p` leading NaNs. -/
def shiftN (p : ℕ) (xs : List ℚ) : List (Option ℚ) :=
  List.replicate (min p xs.length) none ++ (xs.take (xs.length - p)).map some

/-- Embeds `momentum` from `indicators.py`: `close - close.shift(p)`.
Not NaN-filled in the source, hence `Option ℚ`. -/
def momentum (close : List ℚ) (period : ℕ) : List (Option ℚ) :=
  List.zipWith (fun c sh => sh.map (fun s => c - s)) close (shiftN period close)

/-- Embeds `roc` from `indicators.py`:
`((close - close.shift(p)) / (close.shift(p) + 1e-10)) * 100`,
not NaN-filled in the source. -/
def roc (close : List ℚ) (period : ℕ) : List (Option ℚ) :=
  List.zipWith (fun c sh => sh.map (fun s => ((c - s) / (s + eps)) * 100))
    close (shiftN period close)

/-- One OHLCV bar as consumed by the Indicator Engine. The timestamp is
carried to mirror the ordered-sequence data model; `compute_all_indicators`
never inspects it (it performs no monotonicity validation). Volume is
already defaulted upstream per the data model. -/
structure Bar where
  ts : ℤ
  open_ : ℚ
  high : ℚ
  low : ℚ
  close : ℚ
  volume : ℚ
deriving DecidableEq, Repr

/-- Indicator-engine configuration (`cfg["indicators"]`). Fields read via
`ind_cfg.get(key, default)` in the source are optional with the source's
defaults applied in `compute_all_indicators`. -/
structure IndCfg where
  ema_fast : ℕ
  ema_slow : ℕ
  rsi_period : ℕ
  macd_signal : ℕ
  atr_period : ℕ
  bb_period : ℕ
  bb_k : ℚ
  stoch_k : Option ℕ := none
  stoch_d : Option ℕ := none
  williams_period : Option ℕ := none
  adx_period : Option ℕ := none
  cci_period : Option ℕ := none
  momentum_period : Option ℕ := none
  roc_period : Option ℕ := none
deriving DecidableEq, Repr

/-- The IndicatorFrame as a column store, mirroring the pandas DataFrame
built by `compute_all_indicators` (original OHLCV columns kept by
`df.copy()`, indicator columns appended). -/
structure Frame where
  ts : List ℤ
  open_ : List ℚ
  high : List ℚ
  low : List ℚ
  close : List ℚ
  volume : List ℚ
  ema_fast : List ℚ
  ema_slow : List ℚ
  rsi : List ℚ
  macd : List ℚ
  macd_signal : List ℚ
  macd_hist : List ℚ
  atr : List ℚ
  bb_mid : List (Option ℚ)
  bb_upper : List (Option ℝ)
  bb_lower : List (Option ℝ)
  tick_volume : List ℚ
  stoch_k : List ℚ
  stoch_d : List ℚ
  williams_r : List ℚ
  adx : List ℚ
  plus_di : List ℚ
  minus_di : List ℚ
  cci : List ℚ
  momentum : List (Option ℚ)
  roc : List (Option ℚ)

/-- Embeds `compute_all_indicators` from `indicators.py`. The function
performs no input validation of any kind: it computes every column
directly from the bar columns and returns the extended frame. The MACD
is called with `(ema_fast, ema_slow, macd_signal)` exactly as in the
source. A present volume column passes through `tick_volume` unchanged. -/
noncomputable def compute_all_indicators (df : List Bar) (cfg : IndCfg) : Frame :=
  let c := df.map Bar.close
  let h := df.map Bar.high
  let l := df.map Bar.low
  let m3 := macd c cfg.ema_fast cfg.ema_slow cfg.macd_signal
  let bb := bollinger c cfg.bb_period cfg.bb_k
  let st := stochastic h l c (cfg.stoch_k.getD 14) (cfg.stoch_d.getD 3)
  let ax := adx h l c (cfg.adx_period.getD 14)
  { ts := df.map Bar.ts
    open_ := df.map Bar.open_
    high := h
    low := l
    close := c
    volume := df.map Bar.volume
    ema_fast := ema c cfg.ema_fast
    ema_slow := ema c cfg.ema_slow
    rsi := rsi c cfg.rsi_period
    macd := m3.1
    macd_signal := m3.2.1
    macd_hist := m3.2.2
    atr := atr h l c cfg.atr_period
    bb_mid := bb.1
    bb_upper := bb.2.1
    bb_lower := bb.2.2
    tick_volume := df.map Bar.volume
    stoch_k := st.1
    stoch_d := st.2
    williams_r := williams_r h l c (cfg.williams_period.getD 14)
    adx := ax.1
    plus_di := ax.2.1
    minus_di := ax.2.2
    cci := cci h l c (cfg.cci_period.getD 20)
    momentum := momentum c (cfg.momentum_period.getD 10)
    roc := roc c (cfg.roc_period.getD 10) }

/-- Indicator columns of one bar read by `strategy_ema_crossover`
(all non-NaN in the pipeline: EMA/RSI/MACD/ATR columns of the frame are
total). -/
structure EmaRow where
  close : ℚ
  ema_fast : ℚ
  ema_slow : ℚ
  rsi : ℚ
  macd : ℚ
  macd_signal : ℚ
  atr : ℚ
deriving DecidableEq, Repr

/-- Options of `cfg["strategy"]` read by `strategy_ema_crossover`. -/
structure EmaCfg where
  rsi_long_min : ℚ
  rsi_short_max : ℚ
  min_atr_pct : ℚ
  regime_threshold : ℚ
  macd_confirm : Bool
deriving DecidableEq, Repr

/-- Indicator value 0/1 of a boolean sub-condition (`bool.astype(int)`). -/
def b2q (c : Bool) : ℚ := if c then 1 else 0

/-- Embeds `strategy_ema_crossover` from `strategy.py` at one bar.
`prev` carries the previous bar's row (`series.shift(1)`); on the first
bar the shifted comparison is against NaN and is false. The two `mask`
calls are applied in source order (`cond_long` then `cond_short`), and
the score is the matched side's 5-component fraction, 0 when neutral. -/
def strategy_ema_crossover (prev : Option EmaRow) (row : EmaRow)
    (st : EmaCfg) : ℤ × ℚ :=
  let filtVol : Bool := row.atr / |row.close| ≥ st.min_atr_pct
  let reg : Bool := |row.ema_fast - row.ema_slow| / |row.close| ≥ st.regime_threshold
  let longCross : Bool := (row.ema_fast > row.ema_slow : Bool) &&
    (match prev with
     | some p => (p.ema_fast ≤ p.ema_slow : Bool)
     | none => false)
  let shortCross : Bool := (row.ema_fast < row.ema_slow : Bool) &&
    (match prev with
     | some p => (p.ema_fast ≥ p.ema_slow : Bool)
     | none => false)
  let macdOkLong : Bool := if st.macd_confirm then row.macd ≥ row.macd_signal else true
  let macdOkShort : Bool := if st.macd_confirm then row.macd ≤ row.macd_signal else true
  let rsiOkLong : Bool := row.rsi ≥ st.rsi_long_min
  let rsiOkShort : Bool := row.rsi ≤ st.rsi_short_max
  let condLong := longCross && rsiOkLong && macdOkLong && filtVol && reg
  let condShort := shortCross && rsiOkShort && macdOkShort && filtVol && reg
  let longScore := (b2q longCross + b2q rsiOkLong + b2q macdOkLong +
    b2q filtVol + b2q reg) / 5
  let shortScore := (b2q shortCross + b2q rsiOkShort + b2q macdOkShort +
    b2q filtVol + b2q reg) / 5
  let s1 : ℤ := if condLong then 1 else 0
  let s2 : ℤ := if condShort then -1 else s1
  let score : ℚ := if s2 = 1 then longScore else if s2 = -1 then shortScore else 0
  (s2, score)

/-- One strategy's vote at one bar: strategy name, signal, score. -/
structure SVote where
  name : String
  sig : ℤ
  score : ℚ
deriving DecidableEq, Repr

/-- Embeds the dict `STRATEGY_PRIORITY` (with the `.get(name, 0)` default). -/
def STRATEGY_PRIORITY (name : String) : ℤ :=
  if name = "ema_crossover" then 4
  else if name = "macd_crossover" then 3
  else if name = "bollinger_breakout" then 2
  else if name = "rsi_reversal" then 1
  else 0

/-- Indicator columns of one bar read by the tie-break methods
(`adx_trend` and `momentum`). -/
structure TieRow where
  adx : ℚ
  plus_di : ℚ
  minus_di : ℚ
  momentum : Option ℚ
  close : ℚ
deriving DecidableEq, Repr

/-- Tie-breaker options `cfg["strategies"]["tie_breaker"]` with the
source's `.get` defaults (25 and 0) applied by the caller's embedding. -/
structure TieCfg where
  adx_threshold : ℚ := 25
  momentum_threshold : ℚ := 0
deriving DecidableEq, Repr

/-- Mean over ALL evaluated strategies of (score when the strategy voted
in direction `d`, else 0): `scr.where(sig == d, 0)` concatenated and
`mean(axis=1)` — the denominator is the full strategy count. -/
def avg_dir (d : ℤ) (votes : List SVote) : ℚ :=
  (votes.map (fun v => if v.sig = d then v.score else 0)).sum /
    (votes.length : ℚ)

/-- Embeds the `"score"` branch of `resolve_tie` at one (tie) bar:
averages the per-strategy scores zero-filled where the strategy did not
vote in that direction, over ALL evaluated strategies (the `mean(axis=1)`
denominator is the number of concatenated columns), then applies the
three masks in source order. -/
def resolve_tie_score (votes : List SVote) : ℤ × ℚ :=
  let avgLong := avg_dir 1 votes
  let avgShort := avg_dir (-1) votes
  let s1 : ℤ := if avgLong > avgShort then 1 else 0
  let s2 : ℤ := if avgShort > avgLong then -1 else s1
  let score : ℚ := if s2 = 1 then avgLong else if s2 = -1 then avgShort else 0
  (s2, score)

/-- Embeds the `"priority"` branch of `resolve_tie` at one (tie) bar:
scan the evaluated strategies in dict insertion order keeping the
highest-priority non-zero vote. -/
def resolve_tie_priority (votes : List SVote) : ℤ × ℚ :=
  let best := votes.foldl (fun acc v =>
    if v.sig ≠ 0 ∧ STRATEGY_PRIORITY v.name > acc.1
    then (STRATEGY_PRIORITY v.name, v.sig, v.score) else acc)
    ((-1 : ℤ), (0 : ℤ), (0 : ℚ))
  (best.2.1, best.2.2)

/-- Embeds `resolve_tie` from `strategy.py` at one tie bar. NaN momentum
(`none`) compares false on both sides, leaving the signal at 0. An
unknown method name behaves like `"conservative"` (no branch taken). -/
def resolve_tie (row : TieRow) (votes : List SVote) (method : String)
    (tcfg : TieCfg) : ℤ × ℚ :=
  if method = "score" then resolve_tie_score votes
  else if method = "priority" then resolve_tie_priority votes
  else if method = "adx_trend" then
    let strong := row.adx > tcfg.adx_threshold
    let s1 : ℤ := if strong ∧ row.plus_di > row.minus_di then 1 else 0
    let s2 : ℤ := if strong ∧ row.minus_di > row.plus_di then -1 else s1
    (s2, if s2 ≠ 0 then row.adx / 100 else 0)
  else if method = "momentum" then
    let s1 : ℤ := (match row.momentum with
      | some m => if m > tcfg.momentum_threshold then 1 else 0
      | none => 0)
    let s2 : ℤ := (match row.momentum with
      | some m => if m < -tcfg.momentum_threshold then -1 else s1
      | none => s1)
    let sc : ℚ := (match row.momentum with
      | some m => if s2 ≠ 0 then min 1 (max 0 (|m| / row.close)) else 0
      | none => 0)
    (s2, sc)
  else (0, 0)

/-- Embeds the per-strategy evaluation loop of `generate_signals`
(lines 355-365): a strategy whose evaluation raises is caught, logged and
skipped — it contributes nothing to `signals_dict`/`signals_list` for the
whole run, so it is absent from every bar's vote set. -/
def collect_strategies {α : Type} (outcomes : List (Except Unit α)) : List α :=
  outcomes.filterMap (fun o => match o with | .ok v => some v | .error _ => none)

/-- Vote tallies at one bar: `(combined_signals == 1).sum(axis=1)` etc. -/
def long_votes (votes : List SVote) : ℕ := votes.countP (fun v => v.sig == 1)

def short_votes (votes : List SVote) : ℕ := votes.countP (fun v => v.sig == -1)

def neutral_votes (votes : List SVote) : ℕ := votes.countP (fun v => v.sig == 0)

/-- Embeds the default for `min_strategy_votes`:
`st.get("min_strategy_votes", max(1, n_strategies // 2 + 1))`. -/
def min_votes_default (n : ℕ) : ℕ := max 1 (n / 2 + 1)

/-- Embeds the majority-vote combination of `generate_signals`
(lines 367-423) at one bar, for the `combine_strategies=True` mode with
at least one successfully evaluated strategy. The three signal masks are
applied in source order (`clear_long`, then `clear_short`, then the tie
resolution), the tie score overrides on tie bars, and decisive bars get
the mean score of the agreeing strategies. -/
def combine_bar (row : TieRow) (votes : List SVote)
    (minVotesCfg : Option ℕ) (method : String) (tcfg : TieCfg) : ℤ × ℚ :=
  let n := votes.length
  let lv := long_votes votes
  let sv := short_votes votes
  let minVotes := minVotesCfg.getD (min_votes_default n)
  let clearLong := lv ≥ minVotes ∧ lv > sv
  let clearShort := sv ≥ minVotes ∧ sv > lv
  let tie := lv = sv ∧ lv ≥ 1
  let s1 : ℤ := if clearLong then 1 else 0
  let s2 : ℤ := if clearShort then -1 else s1
  let tieRes := resolve_tie row votes method tcfg
  let s3 : ℤ := if tie then tieRes.1 else s2
  let sc1 : ℚ := if tie then tieRes.2 else 0
  let agree (d : ℤ) : List ℚ := (votes.filter (fun v => v.sig == d)).map SVote.score
  let sc2 : ℚ :=
    if s3 = 1 ∧ ¬tie then
      (if agree 1 ≠ [] then meanQ (agree 1) else 0)
    else if s3 = -1 ∧ ¬tie then
      (if agree (-1) ≠ [] then meanQ (agree (-1)) else 0)
    else sc1
  (s3, sc2)

/-- Embeds the SL/TP block of `generate_signals` (lines 433-440) at one
bar: the series start as NaN and are masked by signal direction, so they
are `none` exactly when neither mask fires. -/
def sl_tp_bar (signal : ℤ) (close atrv atr_sl_mult atr_tp_mult : ℚ) :
    Option ℚ × Option ℚ :=
  let slLong := close - atr_sl_mult * atrv
  let tpLong := close + atr_tp_mult * atrv
  let slShort := close + atr_sl_mult * atrv
  let tpShort := close - atr_tp_mult * atrv
  let sl : Option ℚ :=
    if signal = -1 then some slShort else if signal = 1 then some slLong else none
  let tp : Option ℚ :=
    if signal = -1 then some tpShort else if signal = 1 then some tpLong else none
  (sl, tp)

/-- Position side of a `TradeRecord`. -/
inductive Side where
  | lng
  | srt
deriving DecidableEq, Repr

/-- Lifecycle status of a `TradeRecord`. -/
inductive TStatus where
  | opn
  | closed
deriving DecidableEq, Repr

/-- Embeds the `TradeRecord` dataclass of `backtest.py`. The sl/tp are
`Option ℚ` because the source copies the bar's (possibly NaN) `sl`/`tp`
columns into the record at entry. Timestamps are integers; the
string-formatted `duration_minutes` bookkeeping is not modelled (no claim
mentions it). -/
structure Trade where
  trade_id : ℕ
  side : Side
  entry_time : ℤ
  entry_price : ℚ
  exit_time : Option ℤ := none
  exit_price : Option ℚ := none
  units : ℚ
  sl : Option ℚ
  tp : Option ℚ
  pnl : ℚ := 0
  pnl_pct : ℚ := 0
  exit_reason : Option String := none
  status : TStatus
deriving DecidableEq, Repr

/-- One row of the signal frame consumed by `run_backtest`: close price,
combined signal, the `sl`/`tp` columns (NaN on neutral bars), and ATR
(total in the pipeline). -/
structure SigRow where
  ts : ℤ
  close : ℚ
  signal : ℤ
  sl : Option ℚ
  tp : Option ℚ
  atr : ℚ
deriving DecidableEq, Repr

/-- Execution costs `cfg["execution"]`. -/
structure ExecCfg where
  simulate_spread : ℚ
  simulate_slippage : ℚ
deriving DecidableEq, Repr

/-- Mutable state of the `run_backtest` loop. `entry` starts as NaN in
the source and is only ever read while `position ≠ 0`, after being set at
entry; it is modelled as a plain rational (initially 0). -/
structure SimState where
  position : ℤ
  units : ℚ
  entry : ℚ
  entry_time : ℤ
  equity : ℚ
  trade_counter : ℕ
  trades : List Trade
deriving DecidableEq, Repr

/-- Initial simulator state with the configured capital. -/
def initState (capital : ℚ) : SimState :=
  { position := 0, units := 0, entry := 0, entry_time := 0,
    equity := capital, trade_counter := 0, trades := [] }

/-- Embeds the LONG exit check of `run_backtest`:
`if bid <= row["sl"]: SL elif bid >= row["tp"]: TP`. A NaN level makes
its comparison false (the branch is skipped), exactly as a float NaN
comparison does. -/
def exit_long (bid : ℚ) (sl tp : Option ℚ) : Option (ℚ × String) :=
  match sl with
  | some s =>
    if bid ≤ s then some (s, "SL")
    else match tp with
      | some t => if t ≤ bid then some (t, "TP") else none
      | none => none
  | none =>
    match tp with
    | some t => if t ≤ bid then some (t, "TP") else none
    | none => none

/-- Embeds the SHORT exit check of `run_backtest`:
`if ask >= row["sl"]: SL elif ask <= row["tp"]: TP`. -/
def exit_short (ask : ℚ) (sl tp : Option ℚ) : Option (ℚ × String) :=
  match sl with
  | some s =>
    if s ≤ ask then some (s, "SL")
    else match tp with
      | some t => if ask ≤ t then some (t, "TP") else none
      | none => none
  | none =>
    match tp with
    | some t => if ask ≤ t then some (t, "TP") else none
    | none => none

/-- Embeds the in-place close-out loop of `run_backtest`: walk
`trade_history` in order and update the first record matching
`trade_id == trade_counter and status == "OPEN"`, then stop. -/
def closeFirst (tid : ℕ) (ts : ℤ) (ep pnl pnlPct : ℚ) (reason : String) :
    List Trade → List Trade
  | [] => []
  | t :: ts' =>
    if t.trade_id = tid ∧ t.status = .opn then
      { t with exit_time := some ts, exit_price := some ep, pnl := pnl,
               pnl_pct := pnlPct, exit_reason := some reason,
               status := .closed } :: ts'
    else t :: closeFirst tid ts ep pnl pnlPct reason ts'

/-- The `(exit_triggered, exit_price, exit_reason)` outcome of the exit
checks of one `run_backtest` loop iteration (backtest.py lines 196-219):
`none` when no exit condition fires. -/
def exitSignal (ex : ExecCfg) (st : SimState) (row : SigRow) :
    Option (ℚ × String) :=
  let ask := row.close + ex.simulate_spread / 2 + ex.simulate_slippage
  let bid := row.close - ex.simulate_spread / 2 - ex.simulate_slippage
  if st.position = 1 then exit_long bid row.sl row.tp
  else if st.position = -1 then exit_short ask row.sl row.tp
  else none

/-- The `if exit_triggered:` block of `run_backtest` (backtest.py lines
221-261): realize the pnl into equity, close the matching OPEN record in
place, and flatten the position. -/
def applyExit (st : SimState) (row : SigRow) (exi : Option (ℚ × String)) :
    SimState :=
  match exi with
  | none => st
  | some (ep, reason) =>
    let pnl := if st.position = 1 then (ep - st.entry) * st.units
               else (st.entry - ep) * st.units
    let pnlPct := if st.entry * st.units > 0 then (pnl / (st.entry * st.units)) * 100
                  else 0
    { st with
      equity := st.equity + pnl,
      trades := closeFirst st.trade_counter row.ts ep pnl pnlPct reason st.trades,
      position := 0, units := 0 }

/-- Embeds the exit phase of one `run_backtest` loop iteration
(backtest.py lines 195-261). -/
def stepExit (ex : ExecCfg) (st : SimState) (row : SigRow) : SimState :=
  applyExit st row (exitSignal ex st row)

/-- Embeds the entry phase of one `run_backtest` loop iteration
(backtest.py lines 263-329). The position sizer and the daily-loss guard
(`position_size`, `enforce_daily_limits` from the external risk module)
are abstract parameters: `sizer equity price atr` and `guard trades`. -/
def stepEntry (ex : ExecCfg) (sizer : ℚ → ℚ → ℚ → ℚ)
    (guard : List Trade → Bool) (st : SimState) (row : SigRow) : SimState :=
  let ask := row.close + ex.simulate_spread / 2 + ex.simulate_slippage
  let bid := row.close - ex.simulate_spread / 2 - ex.simulate_slippage
  if st.position = 0 ∧ ¬guard st.trades then
    if row.signal = 1 then
      let u := sizer st.equity ask row.atr
      { st with
        trade_counter := st.trade_counter + 1,
        units := u, entry := ask, entry_time := row.ts, position := 1,
        trades := st.trades ++ [{
          trade_id := st.trade_counter + 1, side := .lng,
          entry_time := row.ts, entry_price := ask, units := u,
          sl := row.sl, tp := row.tp, status := .opn }] }
    else if row.signal = -1 then
      let u := sizer st.equity bid row.atr
      { st with
        trade_counter := st.trade_counter + 1,
        units := u, entry := bid, entry_time := row.ts, position := -1,
        trades := st.trades ++ [{
          trade_id := st.trade_counter + 1, side := .srt,
          entry_time := row.ts, entry_price := bid, units := u,
          sl := row.sl, tp := row.tp, status := .opn }] }
    else st
  else st

/-- One full `run_backtest` loop iteration: exit check, then entry check
(same bar re-entry after an exit is possible, as in the source). -/
def stepBar (ex : ExecCfg) (sizer : ℚ → ℚ → ℚ → ℚ)
    (guard : List Trade → Bool) (st : SimState) (row : SigRow) : SimState :=
  stepEntry ex sizer guard (stepExit ex st row) row

/-- The simulator state after each bar, starting from the initial state
(the equity curve is the `equity` field of each element). -/
def run_backtest_states (ex : ExecCfg) (sizer : ℚ → ℚ → ℚ → ℚ)
    (guard : List Trade → Bool) (capital : ℚ) (bars : List SigRow) :
    List SimState :=
  List.scanl (stepBar ex sizer guard) (initState capital) bars

/-- Final simulator state of `run_backtest`. -/
def run_backtest (ex : ExecCfg) (sizer : ℚ → ℚ → ℚ → ℚ)
    (guard : List Trade → Bool) (capital : ℚ) (bars : List SigRow) : SimState :=
  List.foldl (stepBar ex sizer guard) (initState capital) bars

/-- Number of OPEN trade records. -/
def countOpen (trades : List Trade) : ℕ :=
  trades.countP (fun t => t.status == .opn)

/-- Sum of the recorded pnl over CLOSED trade records. -/
def closedPnl (trades : List Trade) : ℚ :=
  ((trades.filter (fun t => t.status == .closed)).map Trade.pnl).sum

/-- Embeds the profit-factor sentinel: a rational value or `+∞`. -/
inductive ProfitFactor where
  | val (q : ℚ)
  | posInf
deriving DecidableEq, Repr

/-- Embeds the gross profit of `compute_detailed_stats`:
`sum(wins) if wins else 0` (identical to the plain sum). -/
def gross_profit (pnls : List ℚ) : ℚ := (pnls.filter (fun p => 0 < p)).sum

/-- Embeds the gross loss of `compute_detailed_stats`:
`abs(sum(losses)) if losses else 0`. -/
def gross_loss (pnls : List ℚ) : ℚ := |(pnls.filter (fun p => p < 0)).sum|

/-- Embeds the profit-factor expression of `compute_detailed_stats`
(line 141): `gross_profit / gross_loss if gross_loss > 0 else inf if
gross_profit > 0 else 0.0`, over the pnl list of the closed trades. -/
def profit_factor (pnls : List ℚ) : ProfitFactor :=
  if 0 < gross_loss pnls then .val (gross_profit pnls / gross_loss pnls)
  else if 0 < gross_profit pnls then .posInf
  else .val 0

/-! ## Theorems -/

/-- Claim C6: The claim says RSI is 100 when the Wilder-smoothed average loss
is exactly zero, with the neutral default 50 reserved for genuinely
undefined (NaN) cases. The code routes a zero smoothed loss through
`loss.replace(0, np.nan)` and then `fillna(50.0)`, so a strictly rising
close series — whose smoothed loss is exactly 0 at every bar after the
first — yields RSI 50, not 100, at those bars. The second conjunct shows
the smoothed loss at bars 1 and 2 is exactly 0 (a defined value, not a
NaN case). -/
theorem rsi_zero_loss_yields_neutral_50 :
    rsi [1, 2, 3] 14 = [50, 50, 50] ∧
    ewm (1 / (14 : ℚ)) ([(1 : ℚ), 1].map (fun d => max (-d) 0)) = [0, 0] := by
  constructor
  · simp only [rsi, ewm, ewmFrom, ewmStep, rsiVal, List.zipWith, List.map]
    norm_num
  · simp only [ewm, ewmFrom, ewmStep, List.map]
    norm_num

/-- Claim C7: The profit factor over the closed trades' pnl list is gross
profit divided by gross loss when the gross loss is positive, the `+∞`
sentinel when the gross loss is zero and the gross profit is positive,
and 0 when both are zero. -/
theorem profit_factor_cases (pnls : List ℚ) :
    (0 < gross_loss pnls →
      profit_factor pnls = .val (gross_profit pnls / gross_loss pnls)) ∧
    (gross_loss pnls = 0 → 0 < gross_profit pnls →
      profit_factor pnls = .posInf) ∧
    (gross_loss pnls = 0 → gross_profit pnls = 0 →
      profit_factor pnls = .val 0) := by
  refine ⟨fun h => ?_, fun h h' => ?_, fun h h' => ?_⟩
  · simp [profit_factor, h]
  · simp [profit_factor, h, h']
  · simp [profit_factor, h, h']

/-- Witness for C7 at concrete inputs: pnls `[5, -2]` (positive gross
loss), `[5]` (zero gross loss, positive gross profit) and `[]` (both
zero). -/
theorem profit_factor_cases_witness :
    profit_factor [5, -2] = .val (5 / 2) ∧
    profit_factor [5] = .posInf ∧
    profit_factor [] = .val 0 := by
  refine ⟨?_, ?_, ?_⟩
  · have h := (profit_factor_cases [5, -2]).1 (by norm_num [gross_loss])
    rw [h]
    norm_num [gross_profit, gross_loss]
  · exact (profit_factor_cases [5]).2.1 (by norm_num [gross_loss])
      (by norm_num [gross_profit])
  · exact (profit_factor_cases []).2.2 (by simp [gross_loss])
      (by simp [gross_profit])

/-- Claim C3: Under tie-break method `"score"`, a tie resolves LONG exactly
when the mean over ALL evaluated strategies of (score if the strategy
voted LONG else 0) strictly exceeds the corresponding SHORT mean, SHORT
in the opposite case, and NEUTRAL with score 0 on exact equality; the
denominator of both means is the full strategy count (zero-filling, not
exclusion). The first conjunct ties the method dispatch of `resolve_tie`
to the `"score"` branch. -/
theorem resolve_tie_score_cases (row : TieRow) (votes : List SVote)
    (tcfg : TieCfg) :
    resolve_tie row votes "score" tcfg = resolve_tie_score votes ∧
    (avg_dir 1 votes > avg_dir (-1) votes →
      resolve_tie_score votes = (1, avg_dir 1 votes)) ∧
    (avg_dir (-1) votes > avg_dir 1 votes →
      resolve_tie_score votes = (-1, avg_dir (-1) votes)) ∧
    (avg_dir 1 votes = avg_dir (-1) votes →
      resolve_tie_score votes = (0, 0)) := by
  refine ⟨rfl, fun h => ?_, fun h => ?_, fun h => ?_⟩
  · have h' : ¬ (avg_dir (-1) votes > avg_dir 1 votes) := not_lt.mpr (le_of_lt h)
    simp [resolve_tie_score, h, h']
  · have h' : ¬ (avg_dir 1 votes > avg_dir (-1) votes) := not_lt.mpr (le_of_lt h)
    simp [resolve_tie_score, h, h']
  · simp [resolve_tie_score, h, lt_irrefl]

/-- Witness for C3 at a concrete tie bar: three evaluated strategies,
LONG voter score 9/10, SHORT voter score 1/2, one neutral. The zero-fill
denominator 3 gives means 3/10 vs 1/6, so the tie resolves LONG with
score 3/10. -/
theorem resolve_tie_score_cases_witness :
    resolve_tie_score [⟨"ema_crossover", 1, 9/10⟩, ⟨"macd_crossover", -1, 1/2⟩,
      ⟨"rsi_reversal", 0, 0⟩] = (1, 3/10) := by
  have h := (resolve_tie_score_cases
    { adx := 0, plus_di := 0, minus_di := 0, momentum := none, close := 1 }
    [⟨"ema_crossover", 1, 9/10⟩, ⟨"macd_crossover", -1, 1/2⟩,
      ⟨"rsi_reversal", 0, 0⟩] {}).2.1 (by norm_num [avg_dir])
  rw [h]
  norm_num [avg_dir]

/-- Claim C5: The combiner's SL/TP at a bar are both non-null iff the combined
signal is nonzero; for LONG they are `close − atr_sl_mult·ATR` and
`close + atr_tp_mult·ATR` (below resp. above the close for positive
multiples and ATR), with the signs flipped for SHORT. -/
theorem sl_tp_bar_cases (sig : ℤ) (close atrv a b : ℚ)
    (hsig : sig = 1 ∨ sig = -1 ∨ sig = 0) :
    (((sl_tp_bar sig close atrv a b).1.isSome ∧
      (sl_tp_bar sig close atrv a b).2.isSome) ↔ sig ≠ 0) ∧
    (sig = 1 → sl_tp_bar sig close atrv a b =
      (some (close - a * atrv), some (close + b * atrv))) ∧
    (sig = -1 → sl_tp_bar sig close atrv a b =
      (some (close + a * atrv), some (close - b * atrv))) ∧
    (0 < a → 0 < b → 0 < atrv →
      close - a * atrv < close ∧ close < close + b * atrv) := by
  refine ⟨?_, fun h => ?_, fun h => ?_, fun ha hb hatr => ?_⟩
  · rcases hsig with h | h | h <;> subst h <;> simp [sl_tp_bar]
  · subst h; simp [sl_tp_bar]
  · subst h; simp [sl_tp_bar]
  · constructor <;> nlinarith

/-- Witness for C5 at concrete inputs: a LONG bar with close 100, ATR 2,
multipliers 1 and 2 gives sl 98 and tp 104 (below resp. above close). -/
theorem sl_tp_bar_cases_witness :
    sl_tp_bar 1 100 2 1 2 = (some 98, some 104) ∧
    (98 : ℚ) < 100 ∧ (100 : ℚ) < 104 := by
  have h := sl_tp_bar_cases 1 100 2 1 2 (by norm_num)
  refine ⟨?_, ?_, ?_⟩
  · have h2 := h.2.1 rfl
    rw [h2]
    norm_num
  · norm_num
  · norm_num

/-- A conjunction of five boolean sub-conditions forces the 5-component
score fraction to 1. -/
lemma b2q_all_one {c1 c2 c3 c4 c5 : Bool}
    (h : (c1 && c2 && c3 && c4 && c5) = true) :
    (b2q c1 + b2q c2 + b2q c3 + b2q c4 + b2q c5) / 5 = 1 := by
  simp only [Bool.and_eq_true] at h
  obtain ⟨⟨⟨⟨h1, h2⟩, h3⟩, h4⟩, h5⟩ := h
  rw [h1, h2, h3, h4, h5]
  norm_num [b2q]

/-- Claim C10: Whenever `strategy_ema_crossover` emits a nonzero signal at a
bar, its score there is exactly 1: the LONG (resp. SHORT) trigger is the
conjunction of the same five boolean sub-conditions whose satisfied
fraction defines the score. -/
theorem ema_crossover_nonzero_score_one (prev : Option EmaRow) (row : EmaRow)
    (st : EmaCfg) (h : (strategy_ema_crossover prev row st).1 ≠ 0) :
    (strategy_ema_crossover prev row st).2 = 1 := by
  simp only [strategy_ema_crossover] at h ⊢
  split_ifs at h ⊢ with h1 h2 h3 h4 h5 h6 <;>
    first
    | exact b2q_all_one (by assumption)
    | simp_all

/-- Witness for C10 at a concrete firing bar: fast EMA crosses above the
slow EMA with RSI 55, MACD above its signal, ATR 1% of price and a 1%
regime gap, so the signal is LONG and the score is exactly 1. -/
theorem ema_crossover_nonzero_score_one_witness :
    (strategy_ema_crossover (some ⟨100, 99, 100, 55, 1, 0, 1⟩)
      ⟨100, 101, 100, 55, 1, 0, 1⟩ ⟨50, 50, 1/200, 1/200, true⟩).2 = 1 :=
  ema_crossover_nonzero_score_one _ _ _
    (by norm_num [strategy_ema_crossover])

/-- Claim C2: In combined mode the per-bar decision is: LONG exactly on
`long_votes ≥ min_votes ∧ long_votes > short_votes`, SHORT on the mirror
condition, the tie-break policy's outcome exactly on
`long_votes = short_votes ∧ long_votes ≥ 1`, and NEUTRAL with score 0
otherwise; with `min_strategy_votes` absent, `min_votes` defaults to
`⌊n/2⌋ + 1` for the `n ≥ 1` evaluated strategies. -/
theorem combine_bar_decision (row : TieRow) (votes : List SVote)
    (mcfg : Option ℕ) (method : String) (tcfg : TieCfg) :
    (long_votes votes ≥ mcfg.getD (min_votes_default votes.length) ∧
        long_votes votes > short_votes votes →
      (combine_bar row votes mcfg method tcfg).1 = 1) ∧
    (short_votes votes ≥ mcfg.getD (min_votes_default votes.length) ∧
        short_votes votes > long_votes votes →
      (combine_bar row votes mcfg method tcfg).1 = -1) ∧
    (long_votes votes = short_votes votes ∧ 1 ≤ long_votes votes →
      combine_bar row votes mcfg method tcfg = resolve_tie row votes method tcfg) ∧
    (¬(long_votes votes ≥ mcfg.getD (min_votes_default votes.length) ∧
        long_votes votes > short_votes votes) →
      ¬(short_votes votes ≥ mcfg.getD (min_votes_default votes.length) ∧
        short_votes votes > long_votes votes) →
      ¬(long_votes votes = short_votes votes ∧ 1 ≤ long_votes votes) →
      combine_bar row votes mcfg method tcfg = (0, 0)) ∧
    (mcfg = none → 1 ≤ votes.length →
      mcfg.getD (min_votes_default votes.length) = votes.length / 2 + 1) := by
  refine ⟨fun hL => ?_, fun hS => ?_, fun hT => ?_, fun ha hb hc => ?_,
    fun he hn => ?_⟩
  · have hTie : ¬(long_votes votes = short_votes votes ∧ 1 ≤ long_votes votes) := by
      omega
    have hCS : ¬(short_votes votes ≥ mcfg.getD (min_votes_default votes.length) ∧
        short_votes votes > long_votes votes) := by omega
    simp [combine_bar, hTie, hCS, hL]
  · have hTie : ¬(long_votes votes = short_votes votes ∧ 1 ≤ long_votes votes) := by
      omega
    simp [combine_bar, hTie, hS]
  · obtain ⟨heq, hge⟩ := hT
    simp only [combine_bar]
    split_ifs with h1 <;>
      first
      | exact Prod.mk.eta
      | exact absurd ⟨heq, hge⟩ h1
      | tauto
  · simp [combine_bar, ha, hb, hc]
  · simp only [he, Option.getD, min_votes_default]
    omega

/-- Witness for C2 at concrete inputs: three evaluated strategies with
votes (LONG, LONG, NEUTRAL): `min_votes` defaults to `⌊3/2⌋+1 = 2`, the
2-vs-0 majority is decisive, and the combined signal is LONG. -/
theorem combine_bar_decision_witness :
    (combine_bar ⟨30, 20, 10, some 1, 100⟩
      [⟨"ema_crossover", 1, 1⟩, ⟨"macd_crossover", 1, 4/5⟩,
       ⟨"rsi_reversal", 0, 0⟩] none "score" {}).1 = 1 ∧
    (none : Option ℕ).getD (min_votes_default 3) = 3 / 2 + 1 := by
  constructor
  · exact (combine_bar_decision ⟨30, 20, 10, some 1, 100⟩
      [⟨"ema_crossover", 1, 1⟩, ⟨"macd_crossover", 1, 4/5⟩,
       ⟨"rsi_reversal", 0, 0⟩] none "score" {}).1 (by decide)
  · exact (combine_bar_decision ⟨30, 20, 10, some 1, 100⟩
      [⟨"ema_crossover", 1, 1⟩, ⟨"macd_crossover", 1, 4/5⟩,
       ⟨"rsi_reversal", 0, 0⟩] none "score" {}).2.2.2.2 rfl (by decide)

/-- Per-strategy evaluation outcomes of a run with four enabled
strategies of which the fourth throws. -/
def outcomes4 : List (Except Unit SVote) :=
  [.ok ⟨"ema_crossover", 1, 0⟩, .ok ⟨"macd_crossover", -1, 0⟩,
   .ok ⟨"rsi_reversal", 0, 0⟩, .error ()]

/-- Claim C4 counterexample: With four enabled strategies of which one throws,
the thrown strategy is dropped from `signals_list` entirely — it is NOT
counted as a NEUTRAL vote — so the per-bar tallies sum to 3, not to the
number of enabled strategies 4. -/
theorem failed_strategy_dropped_from_tally :
    long_votes (collect_strategies outcomes4) +
      short_votes (collect_strategies outcomes4) +
      neutral_votes (collect_strategies outcomes4) = 3 ∧
    neutral_votes (collect_strategies outcomes4) = 1 ∧
    outcomes4.length = 4 := by
  decide

/-- Vote conservation over any per-bar vote list whose signals lie in
`{-1, 0, 1}`. -/
lemma vote_sum (votes : List SVote)
    (h : ∀ v ∈ votes, v.sig = 1 ∨ v.sig = -1 ∨ v.sig = 0) :
    long_votes votes + short_votes votes + neutral_votes votes =
      votes.length := by
  induction votes with
  | nil => rfl
  | cons v vs ih =>
    have hv := h v (List.mem_cons_self _ _)
    have ih' := ih (fun w hw => h w (List.mem_cons_of_mem _ hw))
    simp only [long_votes, short_votes, neutral_votes, List.countP_cons,
      List.length_cons] at *
    rcases hv with h1 | h1 | h1 <;> simp [h1] <;> omega

/-- Claim C4 amended: A strategy whose evaluation throws is excluded from the
vote set for the whole run (the combiner proceeds with the remaining
strategies, as `collect_strategies` is total), and on every bar
`long_votes + short_votes + neutral_votes` equals the number of
SUCCESSFULLY evaluated strategies. -/
theorem vote_sum_eq_evaluated (outs : List (Except Unit SVote))
    (h : ∀ v ∈ collect_strategies outs,
      v.sig = 1 ∨ v.sig = -1 ∨ v.sig = 0) :
    long_votes (collect_strategies outs) +
      short_votes (collect_strategies outs) +
      neutral_votes (collect_strategies outs) =
      (collect_strategies outs).length :=
  vote_sum (collect_strategies outs) h

/-- Per-strategy evaluation outcomes of a run with three enabled
strategies of which the second throws. -/
def outcomes3 : List (Except Unit SVote) :=
  [.ok ⟨"ema_crossover", 1, 0⟩, .error (), .ok ⟨"rsi_reversal", 0, 0⟩]

/-- Witness for C4's amended statement: two successful strategies and one
thrown; the tallies sum to the successful count 2. -/
theorem vote_sum_eq_evaluated_witness :
    long_votes (collect_strategies outcomes3) +
      short_votes (collect_strategies outcomes3) +
      neutral_votes (collect_strategies outcomes3) =
      (collect_strategies outcomes3).length :=
  vote_sum_eq_evaluated outcomes3 (by decide)

/-- Zero-cost execution config for the concrete backtest scenarios. -/
def ex0 : ExecCfg := { simulate_spread := 0, simulate_slippage := 0 }

/-- Constant position sizer (1 unit) standing in for the external
`position_size`. -/
def sizer0 : ℚ → ℚ → ℚ → ℚ := fun _ _ _ => 1

/-- Never-blocking daily-loss guard standing in for the external
`enforce_daily_limits`. -/
def guard0 : List Trade → Bool := fun _ => false

/-- Entry bar of Scenario D: LONG signal at close 100 with sl 98, tp 106. -/
def barEntry : SigRow :=
  { ts := 0, close := 100, signal := 1, sl := some 98, tp := some 106, atr := 1 }

/-- Follow-up bar of Scenario D: neutral bar with close 97.5 (so
bid = 97.5 ≤ the position's stop 98); its own `sl`/`tp` columns are NaN,
as `generate_signals` leaves them on signal-0 bars. -/
def barDrop : SigRow :=
  { ts := 60, close := 195/2, signal := 0, sl := none, tp := none, atr := 1 }

/-- Claim C1: The claim (spec Scenario D) says a LONG position with entry 100,
sl 98, tp 106 followed by a bar with bid 97.5 closes at exit_price 98
with reason SL. The code instead compares bid against the CURRENT bar's
`sl`/`tp` columns (NaN on neutral bars, so both comparisons are false)
and never reads the position's stored levels: after the drop bar the
position is still open and the equity unchanged, even though
bid = 97.5 ≤ 98 = the stored stop-loss of the open trade. -/
theorem run_backtest_ignores_position_sl :
    (run_backtest ex0 sizer0 guard0 1000 [barEntry, barDrop]).position = 1 ∧
    countOpen (run_backtest ex0 sizer0 guard0 1000 [barEntry, barDrop]).trades
      = 1 ∧
    (run_backtest ex0 sizer0 guard0 1000 [barEntry, barDrop]).equity = 1000 ∧
    (run_backtest ex0 sizer0 guard0 1000
      [barEntry, barDrop]).trades.map Trade.sl = [some 98] ∧
    barDrop.close - ex0.simulate_spread / 2 - ex0.simulate_slippage ≤ 98 := by
  refine ⟨?_, ?_, ?_, ?_, by norm_num [barDrop, ex0]⟩ <;>
    norm_num [run_backtest, List.foldl, stepBar, stepExit, exitSignal,
      applyExit, stepEntry, exit_long, exit_short, initState, ex0, sizer0,
      guard0, barEntry, barDrop, countOpen, closeFirst]

/-! Length preservation of the indicator pipeline, used to show the
Indicator Engine silently produces one output row per input bar. -/

lemma length_ewmFrom (a s : ℚ) (xs : List ℚ) :
    (ewmFrom a s xs).length = xs.length := by
  induction xs generalizing s with
  | nil => rfl
  | cons x t ih => simp [ewmFrom, ih]

lemma length_ewm (a : ℚ) (xs : List ℚ) : (ewm a xs).length = xs.length := by
  cases xs with
  | nil => rfl
  | cons x t => simp [ewm, length_ewmFrom]

lemma length_ema (xs : List ℚ) (p : ℕ) : (ema xs p).length = xs.length :=
  length_ewm _ _

lemma length_rsi (xs : List ℚ) (p : ℕ) : (rsi xs p).length = xs.length := by
  cases xs with
  | nil => rfl
  | cons c rest =>
    simp [rsi, List.length_zipWith, length_ewm, List.length_map]

lemma length_macd_line (c : List ℚ) (f s g : ℕ) :
    (macd c f s g).1.length = c.length := by
  simp [macd, List.length_zipWith, length_ema]

lemma length_macd_signal (c : List ℚ) (f s g : ℕ) :
    (macd c f s g).2.1.length = c.length := by
  simp [macd, length_ewm, List.length_zipWith, length_ema]

lemma length_macd_hist (c : List ℚ) (f s g : ℕ) :
    (macd c f s g).2.2.length = c.length := by
  simp [macd, length_ewm, List.length_zipWith, length_ema]

lemma length_shift1 (xs : List ℚ) : (shift1 xs).length = xs.length := by
  cases xs with
  | nil => rfl
  | cons x t => simp [shift1]

lemma length_true_range (h l c : List ℚ) (hh : h.length = c.length)
    (hl : l.length = c.length) : (true_range h l c).length = c.length := by
  simp [true_range, List.length_zipWith, List.length_zip, length_shift1, hh, hl]

lemma length_atr (h l c : List ℚ) (p : ℕ) (hh : h.length = c.length)
    (hl : l.length = c.length) : (atr h l c p).length = c.length := by
  simp [atr, length_ewm, length_true_range h l c hh hl]

lemma length_windowsA {γ : Type} (p : ℕ) (xs : List γ) :
    (windowsA p xs).length = xs.length := by
  simp [windowsA]

lemma length_rollMean (p : ℕ) (xs : List ℚ) :
    (rollMean p xs).length = xs.length := by
  simp [rollMean, length_windowsA]

lemma length_rollMin (p : ℕ) (xs : List ℚ) :
    (rollMin p xs).length = xs.length := by
  simp [rollMin, length_windowsA]

lemma length_rollMax (p : ℕ) (xs : List ℚ) :
    (rollMax p xs).length = xs.length := by
  simp [rollMax, length_windowsA]

lemma length_bollinger_mid (c : List ℚ) (p : ℕ) (k : ℚ) :
    (bollinger c p k).1.length = c.length := by
  simp [bollinger, length_rollMean]

lemma length_bollinger_upper (c : List ℚ) (p : ℕ) (k : ℚ) :
    (bollinger c p k).2.1.length = c.length := by
  simp [bollinger, List.length_zipWith, length_rollMean, length_windowsA]

lemma length_bollinger_lower (c : List ℚ) (p : ℕ) (k : ℚ) :
    (bollinger c p k).2.2.length = c.length := by
  simp [bollinger, List.length_zipWith, length_rollMean, length_windowsA]

lemma length_stochastic_k (h l c : List ℚ) (kp dp : ℕ)
    (hh : h.length = c.length) (hl : l.length = c.length) :
    (stochastic h l c kp dp).1.length = c.length := by
  simp [stochastic, List.length_zipWith, List.length_zip, length_rollMin,
    length_rollMax, hh, hl]

lemma length_stochastic_d (h l c : List ℚ) (kp dp : ℕ)
    (hh : h.length = c.length) (hl : l.length = c.length) :
    (stochastic h l c kp dp).2.length = c.length := by
  simp [stochastic, length_windowsA, List.length_zipWith, List.length_zip,
    length_rollMin, length_rollMax, hh, hl]

lemma length_williams_r (h l c : List ℚ) (p : ℕ)
    (hh : h.length = c.length) (hl : l.length = c.length) :
    (williams_r h l c p).length = c.length := by
  simp [williams_r, List.length_zipWith, List.length_zip, length_rollMin,
    length_rollMax, hh, hl]

lemma length_diffO (xs : List ℚ) : (diffO xs).length = xs.length := by
  cases xs with
  | nil => rfl
  | cons x t => simp [diffO, List.length_zipWith]

lemma length_adx_main (h l c : List ℚ) (p : ℕ) (hh : h.length = c.length)
    (hl : l.length = c.length) : (adx h l c p).1.length = c.length := by
  simp [adx, length_ewm, List.length_zipWith, length_diffO, List.length_map,
    length_true_range h l c hh hl, hh, hl]

lemma length_adx_plus (h l c : List ℚ) (p : ℕ) (hh : h.length = c.length)
    (hl : l.length = c.length) : (adx h l c p).2.1.length = c.length := by
  simp [adx, length_ewm, List.length_zipWith, length_diffO, List.length_map,
    length_true_range h l c hh hl, hh, hl]

lemma length_adx_minus (h l c : List ℚ) (p : ℕ) (hh : h.length = c.length)
    (hl : l.length = c.length) : (adx h l c p).2.2.length = c.length := by
  simp [adx, length_ewm, List.length_zipWith, length_diffO, List.length_map,
    length_true_range h l c hh hl, hh, hl]

lemma length_cci (h l c : List ℚ) (p : ℕ) (hh : h.length = c.length)
    (hl : l.length = c.length) : (cci h l c p).length = c.length := by
  simp [cci, List.length_zipWith, List.length_zip, length_rollMean,
    length_windowsA, hh, hl]

lemma length_shiftN (p : ℕ) (xs : List ℚ) : (shiftN p xs).length = xs.length := by
  simp [shiftN]
  omega

lemma length_momentum (c : List ℚ) (p : ℕ) :
    (momentum c p).length = c.length := by
  simp [momentum, List.length_zipWith, length_shiftN]

lemma length_roc (c : List ℚ) (p : ℕ) : (roc c p).length = c.length := by
  simp [roc, List.length_zipWith, length_shiftN]

/-- Claim C8 counterexample: `compute_all_indicators` performs no input
validation and raises nothing: on the empty bar sequence it silently
returns the empty frame, and on a non-monotonic two-bar sequence
(timestamps 1 then 0) it silently returns a two-row frame — in neither
case does any error surface (the embedding is a total function; the
source has no raise statement and no InvalidInputError type exists in
the repository). -/
theorem compute_all_indicators_no_validation :
    compute_all_indicators [] ⟨3, 8, 14, 9, 14, 20, 2, none, none, none,
      none, none, none, none⟩ =
      { ts := [], open_ := [], high := [], low := [], close := [],
        volume := [], ema_fast := [], ema_slow := [], rsi := [], macd := [],
        macd_signal := [], macd_hist := [], atr := [], bb_mid := [],
        bb_upper := [], bb_lower := [], tick_volume := [], stoch_k := [],
        stoch_d := [], williams_r := [], adx := [], plus_di := [],
        minus_di := [], cci := [], momentum := [], roc := [] } ∧
    (compute_all_indicators
      [⟨1, 5, 6, 4, 5, 1⟩, ⟨0, 4, 5, 3, 4, 1⟩]
      ⟨3, 8, 14, 9, 14, 20, 2, none, none, none, none, none, none,
        none⟩).close = [5, 4] := by
  constructor
  · rfl
  · rfl

/-- Claim C8 amended: For EVERY bar sequence (empty, non-monotonic or
otherwise) and every config, `compute_all_indicators` silently produces
an output frame with exactly one value per input bar in every column; it
raises no error of any kind. -/
theorem compute_all_indicators_row_counts (df : List Bar) (cfg : IndCfg) :
    (compute_all_indicators df cfg).ts.length = df.length ∧
    (compute_all_indicators df cfg).open_.length = df.length ∧
    (compute_all_indicators df cfg).high.length = df.length ∧
    (compute_all_indicators df cfg).low.length = df.length ∧
    (compute_all_indicators df cfg).close.length = df.length ∧
    (compute_all_indicators df cfg).volume.length = df.length ∧
    (compute_all_indicators df cfg).ema_fast.length = df.length ∧
    (compute_all_indicators df cfg).ema_slow.length = df.length ∧
    (compute_all_indicators df cfg).rsi.length = df.length ∧
    (compute_all_indicators df cfg).macd.length = df.length ∧
    (compute_all_indicators df cfg).macd_signal.length = df.length ∧
    (compute_all_indicators df cfg).macd_hist.length = df.length ∧
    (compute_all_indicators df cfg).atr.length = df.length ∧
    (compute_all_indicators df cfg).bb_mid.length = df.length ∧
    (compute_all_indicators df cfg).bb_upper.length = df.length ∧
    (compute_all_indicators df cfg).bb_lower.length = df.length ∧
    (compute_all_indicators df cfg).tick_volume.length = df.length ∧
    (compute_all_indicators df cfg).stoch_k.length = df.length ∧
    (compute_all_indicators df cfg).stoch_d.length = df.length ∧
    (compute_all_indicators df cfg).williams_r.length = df.length ∧
    (compute_all_indicators df cfg).adx.length = df.length ∧
    (compute_all_indicators df cfg).plus_di.length = df.length ∧
    (compute_all_indicators df cfg).minus_di.length = df.length ∧
    (compute_all_indicators df cfg).cci.length = df.length ∧
    (compute_all_indicators df cfg).momentum.length = df.length ∧
    (compute_all_indicators df cfg).roc.length = df.length := by
  have hh : (df.map Bar.high).length = (df.map Bar.close).length := by simp
  have hl : (df.map Bar.low).length = (df.map Bar.close).length := by simp
  refine ⟨?_, ?_, ?_, ?_, ?_, ?_, ?_, ?_, ?_, ?_, ?_, ?_, ?_, ?_, ?_, ?_,
    ?_, ?_, ?_, ?_, ?_, ?_, ?_, ?_, ?_, ?_⟩ <;>
    simp only [compute_all_indicators] <;>
    first
    | simp
    | simp [length_ema, length_rsi]
    | simp [length_macd_line, length_macd_signal, length_macd_hist]
    | simp [length_atr _ _ _ _ hh hl]
    | simp [length_bollinger_mid, length_bollinger_upper, length_bollinger_lower]
    | simp [length_stochastic_k _ _ _ _ _ hh hl, length_stochastic_d _ _ _ _ _ hh hl]
    | simp [length_williams_r _ _ _ _ hh hl]
    | simp [length_adx_main _ _ _ _ hh hl, length_adx_plus _ _ _ _ hh hl,
        length_adx_minus _ _ _ _ hh hl]
    | simp [length_cci _ _ _ _ hh hl]
    | simp [length_momentum, length_roc]

/-! Single-position invariant of the backtest loop (C9). -/

/-- Loop invariant of `run_backtest`: flat means no OPEN record; in a
position there is exactly one OPEN record and it carries the current
trade counter as id. -/
def SimInv (s : SimState) : Prop :=
  (s.position = 0 → countOpen s.trades = 0) ∧
  (s.position ≠ 0 → countOpen s.trades = 1 ∧
    ∀ t ∈ s.trades, t.status = .opn → t.trade_id = s.trade_counter)

lemma countOpen_cons (t : Trade) (l : List Trade) :
    countOpen (t :: l) = countOpen l + (if t.status = .opn then 1 else 0) := by
  by_cases h : t.status = .opn <;> simp [countOpen, List.countP_cons, h]

lemma closedPnl_cons (t : Trade) (l : List Trade) :
    closedPnl (t :: l) = (if t.status = .closed then t.pnl else 0) + closedPnl l := by
  by_cases h : t.status = .closed <;> simp [closedPnl, List.filter_cons, h]

lemma countOpen_append (l1 l2 : List Trade) :
    countOpen (l1 ++ l2) = countOpen l1 + countOpen l2 := by
  simp [countOpen, List.countP_append]

lemma closedPnl_append (l1 l2 : List Trade) :
    closedPnl (l1 ++ l2) = closedPnl l1 + closedPnl l2 := by
  simp [closedPnl, List.filter_append]

lemma countOpen_eq_zero (l : List Trade) :
    countOpen l = 0 ↔ ∀ t ∈ l, t.status ≠ .opn := by
  simp [countOpen, List.countP_eq_zero]

/-- Closing via the in-place scan: when the list holds exactly one OPEN
record, whose id is the current counter, the scan closes it — the OPEN
count drops to 0 and the closed-pnl sum grows by exactly the recorded
pnl. -/
lemma closeFirst_unique (tid : ℕ) (ts : ℤ) (ep pnl pct : ℚ) (r : String)
    (l : List Trade) (hid : ∀ t ∈ l, t.status = .opn → t.trade_id = tid)
    (hone : countOpen l = 1) :
    countOpen (closeFirst tid ts ep pnl pct r l) = 0 ∧
    closedPnl (closeFirst tid ts ep pnl pct r l) = closedPnl l + pnl := by
  induction l with
  | nil => simp [countOpen] at hone
  | cons t rest ih =>
    by_cases hm : t.trade_id = tid ∧ t.status = .opn
    · have hrest : countOpen rest = 0 := by
        rw [countOpen_cons] at hone
        simp [hm.2] at hone
        omega
      constructor
      · simp [closeFirst, hm, countOpen_cons, hrest]
      · simp [closeFirst, hm, closedPnl_cons, hm.2, hrest]
        ring
    · have hto : t.status ≠ .opn := by
        intro ho
        exact hm ⟨hid t (List.mem_cons_self _ _) ho, ho⟩
      have hrest1 : countOpen rest = 1 := by
        rw [countOpen_cons] at hone
        simpa [hto] using hone
      have ihr := ih (fun w hw hwo => hid w (List.mem_cons_of_mem _ hw) hwo) hrest1
      constructor
      · simp [closeFirst, hm, countOpen_cons, hto, ihr.1]
      · simp [closeFirst, hm, closedPnl_cons, ihr.2]
        ring

lemma simInv_initState (capital : ℚ) : SimInv (initState capital) := by
  constructor <;> simp [initState, countOpen]

/-- During the exit phase the invariant is preserved and the equity moves
by exactly the growth of the recorded closed pnl. -/
lemma stepExit_inv (ex : ExecCfg) (st : SimState) (row : SigRow)
    (h : SimInv st) :
    SimInv (stepExit ex st row) ∧
    (stepExit ex st row).equity - st.equity =
      closedPnl (stepExit ex st row).trades - closedPnl st.trades := by
  unfold stepExit
  cases hexi : exitSignal ex st row with
  | none =>
    refine ⟨?_, ?_⟩ <;> simp [applyExit, h]
  | some pr =>
    obtain ⟨ep, reason⟩ := pr
    have hp : st.position ≠ 0 := by
      intro h0
      rw [exitSignal] at hexi
      simp [h0] at hexi
    obtain ⟨hone, hid⟩ := h.2 hp
    have hc := closeFirst_unique st.trade_counter row.ts ep
      (if st.position = 1 then (ep - st.entry) * st.units
       else (st.entry - ep) * st.units)
      (if st.entry * st.units > 0
       then ((if st.position = 1 then (ep - st.entry) * st.units
              else (st.entry - ep) * st.units) / (st.entry * st.units)) * 100
       else 0)
      reason st.trades hid hone
    refine ⟨⟨fun _ => ?_, fun hne => absurd ?_ hne⟩, ?_⟩
    · simpa [applyExit] using hc.1
    · simp [applyExit]
    · simp only [applyExit]
      rw [hc.2]
      ring

/-- During the entry phase the invariant is preserved; neither the equity
nor the closed-pnl sum changes (a fresh record enters with status OPEN
and pnl 0). -/
lemma stepEntry_inv (ex : ExecCfg) (sizer : ℚ → ℚ → ℚ → ℚ)
    (guard : List Trade → Bool) (st : SimState) (row : SigRow)
    (h : SimInv st) :
    SimInv (stepEntry ex sizer guard st row) ∧
    (stepEntry ex sizer guard st row).equity = st.equity ∧
    closedPnl (stepEntry ex sizer guard st row).trades =
      closedPnl st.trades := by
  unfold stepEntry
  split_ifs with h1 h2 h3
  · have h0 : countOpen st.trades = 0 := h.1 h1.1
    have hnone := (countOpen_eq_zero st.trades).mp h0
    refine ⟨⟨fun hpz => by simp at hpz, fun _ => ⟨?_, ?_⟩⟩, rfl, ?_⟩
    · simp [countOpen_append, h0, countOpen_cons, countOpen]
      exact hnone
    · intro t ht hto
      rcases List.mem_append.mp ht with hin | hin
      · exact absurd hto (hnone t hin)
      · simp at hin
        subst hin
        rfl
    · simp [closedPnl_append, closedPnl_cons, closedPnl]
  · have h0 : countOpen st.trades = 0 := h.1 h1.1
    have hnone := (countOpen_eq_zero st.trades).mp h0
    refine ⟨⟨fun hpz => by simp at hpz, fun _ => ⟨?_, ?_⟩⟩, rfl, ?_⟩
    · simp [countOpen_append, h0, countOpen_cons, countOpen]
      exact hnone
    · intro t ht hto
      rcases List.mem_append.mp ht with hin | hin
      · exact absurd hto (hnone t hin)
      · simp at hin
        subst hin
        rfl
    · simp [closedPnl_append, closedPnl_cons, closedPnl]
  · exact ⟨h, rfl, rfl⟩
  · exact ⟨h, rfl, rfl⟩

/-- One full bar iteration preserves the invariant and moves the equity
by exactly the growth of the recorded closed pnl. -/
lemma stepBar_inv (ex : ExecCfg) (sizer : ℚ → ℚ → ℚ → ℚ)
    (guard : List Trade → Bool) (st : SimState) (row : SigRow)
    (h : SimInv st) :
    SimInv (stepBar ex sizer guard st row) ∧
    (stepBar ex sizer guard st row).equity - st.equity =
      closedPnl (stepBar ex sizer guard st row).trades -
        closedPnl st.trades := by
  have he := stepExit_inv ex st row h
  have hn := stepEntry_inv ex sizer guard (stepExit ex st row) row he.1
  refine ⟨hn.1, ?_⟩
  rw [stepBar, hn.2.1, hn.2.2]
  exact he.2

/-- The invariant holds along the whole scan of the bar list. -/
lemma simInv_scanl (ex : ExecCfg) (sizer : ℚ → ℚ → ℚ → ℚ)
    (guard : List Trade → Bool) (bars : List SigRow) (st : SimState)
    (h : SimInv st) :
    ∀ s ∈ List.scanl (stepBar ex sizer guard) st bars, SimInv s := by
  induction bars generalizing st with
  | nil =>
    intro s hs
    rw [List.scanl_nil] at hs
    simp at hs
    subst hs
    exact h
  | cons b bs ih =>
    intro s hs
    rw [List.scanl_cons] at hs
    simp only [List.singleton_append, List.mem_cons] at hs
    rcases hs with rfl | hs
    · exact h
    · exact ih (stepBar ex sizer guard st b)
        (stepBar_inv ex sizer guard st b h).1 s hs

/-- Claim C9: Throughout every backtest run — for any position sizer and
daily-loss guard — every state reached by the simulator has at most one
OPEN trade record, and between consecutive bar states the running equity
changes by exactly the change of the pnl recorded on CLOSED trades (so a
trade's transition to CLOSED moves equity by precisely its recorded pnl,
and equity never moves otherwise). -/
theorem run_backtest_single_open_and_pnl (ex : ExecCfg)
    (sizer : ℚ → ℚ → ℚ → ℚ) (guard : List Trade → Bool) (capital : ℚ)
    (bars : List SigRow) :
    (∀ s ∈ run_backtest_states ex sizer guard capital bars,
      countOpen s.trades ≤ 1) ∧
    (∀ (i : ℕ) (s s' : SimState),
      (run_backtest_states ex sizer guard capital bars).get? i = some s →
      (run_backtest_states ex sizer guard capital bars).get? (i + 1) = some s' →
      s'.equity - s.equity = closedPnl s'.trades - closedPnl s.trades) := by
  have hinv := simInv_scanl ex sizer guard bars (initState capital)
    (simInv_initState capital)
  constructor
  · intro s hs
    have h := hinv s hs
    by_cases hp : s.position = 0
    · simp [h.1 hp]
    · simp [(h.2 hp).1]
  · intro i s s' hgs hgs'
    have hsucc := List.get?_succ_scanl (f := stepBar ex sizer guard)
      (b := initState capital) (l := bars) (i := i)
    rw [run_backtest_states] at hgs hgs'
    rw [hgs', hgs] at hsucc
    cases hb : bars.get? i with
    | none =>
      rw [hb] at hsucc
      simp at hsucc
    | some bar =>
      rw [hb] at hsucc
      simp only [Option.some_bind, Option.map_some'] at hsucc
      have hs'eq : s' = stepBar ex sizer guard s bar := by
        exact Option.some.inj hsucc
      have hmem : s ∈ run_backtest_states ex sizer guard capital bars :=
        List.get?_mem hgs
      have hInv := hinv s hmem
      rw [hs'eq]
      exact (stepBar_inv ex sizer guard s bar hInv).2

/-- Witness for C9 on the concrete one-bar run opening a LONG position:
the initial state is reached and has at most one OPEN trade, and the
equity delta across the entry bar equals the closed-pnl delta. -/
theorem run_backtest_single_open_and_pnl_witness :
    countOpen (initState 1000).trades ≤ 1 ∧
    (stepBar ex0 sizer0 guard0 (initState 1000) barEntry).equity -
        (initState 1000).equity =
      closedPnl (stepBar ex0 sizer0 guard0 (initState 1000) barEntry).trades -
        closedPnl (initState 1000).trades :=
  ⟨(run_backtest_single_open_and_pnl ex0 sizer0 guard0 1000 [barEntry]).1
      (initState 1000) (by simp [run_backtest_states, List.scanl_cons]),
   (run_backtest_single_open_and_pnl ex0 sizer0 guard0 1000 [barEntry]).2 0
      (initState 1000) (stepBar ex0 sizer0 guard0 (initState 1000) barEntry)
      rfl rfl⟩

end Mvpfx
